import Mathlib

/-!
Verification of the A2A Tool Bridge of the order-audit agent
(`patterns/order-audit-agent/order_audit_agent.py`).

The Python code is shallowly embedded: strings and string helpers mirror the
Python string operations used by the bridge; JSON values parsed by
`json.loads` are modelled by the inductive `JVal` together with an executable
recursive-descent parser `pyJsonLoads`; the network-facing pieces
(`boto3` clients, `invoke_agent_runtime`, Step Functions `start_execution`)
are modelled by explicit oracles supplying their outcomes, and each
capability additionally returns the list of side `Effect`s it performed, so
that statements such as "the transport is never invoked" are expressible.
Exceptions are modelled by `Except String`: `.error` is a raised exception
carrying its message, `.ok` a normal return.
-/

namespace OrderAudit

/-! ## Python-style string primitives -/

/-- Characters treated as whitespace by Python `str.strip` (the common
whitespace set; both the embedded code and the embedded spec readings share
this definition, so the exact extent of the exotic-whitespace set does not
affect any comparison made in this file). -/
def pyIsSpace (c : Char) : Bool :=
  c == ' ' || c == '\t' || c == '\n' || c == '\r' || c == '\x0b' || c == '\x0c' ||
  c == '\x1c' || c == '\x1d' || c == '\x1e' || c == '\x1f' || c == '\x85' || c == '\xa0'

/-- Python `str.strip()` on the character list. -/
def pyStripL (l : List Char) : List Char :=
  ((l.dropWhile pyIsSpace).reverse.dropWhile pyIsSpace).reverse

/-- Python `str.strip()`. -/
def pyStrip (s : String) : String := ⟨pyStripL s.data⟩

/-- Python `s[:n]` for strings. -/
def pyTake (n : Nat) (s : String) : String := ⟨s.data.take n⟩

/-- Python `s.startswith(p)`. -/
def pyStartsWith (p s : String) : Bool := p.data.isPrefixOf s.data

/-- Splits `l` at the first occurrence of the pattern `pat`, returning the
part strictly before the occurrence and the part strictly after it;
`none` when `pat` does not occur.  This is Python `s.split(pat, 1)`
restricted to the case where the separator occurs. -/
def splitOnceAux (pat : List Char) : List Char → Option (List Char × List Char)
  | [] => if pat.isPrefixOf ([] : List Char) then some ([], []) else none
  | c :: t =>
    if pat.isPrefixOf (c :: t) then some ([], (c :: t).drop pat.length)
    else (splitOnceAux pat t).map (fun pr => (c :: pr.1, pr.2))

/-- Part of `s` strictly before the first occurrence of `pat`; the whole of
`s` when `pat` does not occur (Python `s.split(pat, 1)[0]`). -/
def beforeFirst (pat s : String) : String :=
  match splitOnceAux pat.data s.data with
  | some pr => ⟨pr.1⟩
  | none => s

/-- Part of `s` strictly after the first occurrence of `pat`
(Python `s.split(pat, 1)[1]`, defined only when the separator occurs). -/
def afterFirst (pat s : String) : Option String :=
  (splitOnceAux pat.data s.data).map (fun pr => ⟨pr.2⟩)

/-- Whether `pat` occurs in `s`, phrased through the same splitting
mechanism the embedded code uses. -/
def containsSub (pat s : String) : Bool := (splitOnceAux pat.data s.data).isSome

/-- Python `needle in hay` for strings (substring containment). -/
def strContainsB (hay needle : String) : Bool := containsSub needle hay

/-- Python `s.rstrip("/")` on the character list. -/
def rstripSlashL (l : List Char) : List Char :=
  (l.reverse.dropWhile (fun c => c == '/')).reverse

/-- Python `s.rstrip("/")`. -/
def rstripSlash (s : String) : String := ⟨rstripSlashL s.data⟩

/-- Python `s.split("?", 1)[0]`: the characters strictly before the first
question mark (the whole string when there is none). -/
def beforeQuery (s : String) : String := ⟨s.data.takeWhile (fun c => c ≠ '?')⟩

/-! ## Percent decoding (`urllib.parse.unquote`) -/

/-- Value of a hexadecimal digit character. -/
def hexDigitVal (c : Char) : Option Nat :=
  if '0' ≤ c ∧ c ≤ '9' then some (c.toNat - 48)
  else if 'a' ≤ c ∧ c ≤ 'f' then some (c.toNat - 87)
  else if 'A' ≤ c ∧ c ≤ 'F' then some (c.toNat - 55)
  else none

/-- Whether a byte is a UTF-8 continuation byte. -/
def utf8Cont (b : Nat) : Bool := 0x80 ≤ b && b ≤ 0xBF

/-- Constraint on the first continuation byte of a three-byte UTF-8
sequence with lead byte `b` (excludes overlong forms and surrogates). -/
def utf8Cont3 (b b2 : Nat) : Bool :=
  if b == 0xE0 then 0xA0 ≤ b2 && b2 ≤ 0xBF
  else if b == 0xED then 0x80 ≤ b2 && b2 ≤ 0x9F
  else utf8Cont b2

/-- Constraint on the first continuation byte of a four-byte UTF-8
sequence with lead byte `b` (excludes overlong forms and values beyond
U+10FFFF). -/
def utf8Cont4 (b b2 : Nat) : Bool :=
  if b == 0xF0 then 0x90 ≤ b2 && b2 ≤ 0xBF
  else if b == 0xF4 then 0x80 ≤ b2 && b2 ≤ 0x8F
  else utf8Cont b2

/-- Fueled worker for `utf8DecodeReplace`; the fuel only bounds recursion
depth and is always supplied large enough at the call site. -/
def utf8DecodeReplaceAux : Nat → List Nat → List Char
  | 0, _ => []
  | _, [] => []
  | fuel + 1, b :: rest =>
    if b < 0x80 then Char.ofNat b :: utf8DecodeReplaceAux fuel rest
    else if 0xC2 ≤ b && b ≤ 0xDF then
      match rest with
      | [] => ['�']
      | b2 :: r2 =>
        if utf8Cont b2 then
          Char.ofNat ((b - 0xC0) * 0x40 + (b2 - 0x80)) :: utf8DecodeReplaceAux fuel r2
        else '�' :: utf8DecodeReplaceAux fuel (b2 :: r2)
    else if 0xE0 ≤ b && b ≤ 0xEF then
      match rest with
      | [] => ['�']
      | b2 :: r2 =>
        if utf8Cont3 b b2 then
          match r2 with
          | [] => ['�']
          | b3 :: r3 =>
            if utf8Cont b3 then
              Char.ofNat ((b - 0xE0) * 0x1000 + (b2 - 0x80) * 0x40 + (b3 - 0x80)) ::
                utf8DecodeReplaceAux fuel r3
            else '�' :: utf8DecodeReplaceAux fuel (b3 :: r3)
        else '�' :: utf8DecodeReplaceAux fuel (b2 :: r2)
    else if 0xF0 ≤ b && b ≤ 0xF4 then
      match rest with
      | [] => ['�']
      | b2 :: r2 =>
        if utf8Cont4 b b2 then
          match r2 with
          | [] => ['�']
          | b3 :: r3 =>
            if utf8Cont b3 then
              match r3 with
              | [] => ['�']
              | b4 :: r4 =>
                if utf8Cont b4 then
                  Char.ofNat ((b - 0xF0) * 0x40000 + (b2 - 0x80) * 0x1000 +
                    (b3 - 0x80) * 0x40 + (b4 - 0x80)) :: utf8DecodeReplaceAux fuel r4
                else '�' :: utf8DecodeReplaceAux fuel (b4 :: r4)
            else '�' :: utf8DecodeReplaceAux fuel (b3 :: r3)
        else '�' :: utf8DecodeReplaceAux fuel (b2 :: r2)
    else '�' :: utf8DecodeReplaceAux fuel rest

/-- UTF-8 decoding of a byte list with `errors="replace"`: each maximal
invalid subpart becomes U+FFFD, as in Python `bytes.decode`. -/
def utf8DecodeReplace (l : List Nat) : List Char := utf8DecodeReplaceAux (l.length + 1) l

/-- Worker for `pyUnquote`: scans the input, accumulating the bytes of
consecutive valid percent escapes in `pending` so that multi-byte UTF-8
sequences split across several escapes decode together, exactly as
`urllib.parse.unquote` does. An invalid escape leaves its percent sign in
the output verbatim. -/
def pyUnquoteAux : Nat → List Char → List Nat → List Char
  | 0, _, pending => utf8DecodeReplace pending
  | _, [], pending => utf8DecodeReplace pending
  | fuel + 1, '%' :: h1 :: h2 :: rest2, pending =>
    match hexDigitVal h1, hexDigitVal h2 with
    | some a, some b => pyUnquoteAux fuel rest2 (pending ++ [a * 16 + b])
    | _, _ => utf8DecodeReplace pending ++ '%' :: pyUnquoteAux fuel (h1 :: h2 :: rest2) []
  | fuel + 1, '%' :: rest, pending => utf8DecodeReplace pending ++ '%' :: pyUnquoteAux fuel rest []
  | fuel + 1, c :: rest, pending => utf8DecodeReplace pending ++ c :: pyUnquoteAux fuel rest []

/-- Python `urllib.parse.unquote` with its default arguments
(`encoding="utf-8"`, `errors="replace"`). -/
def pyUnquote (s : String) : String := ⟨pyUnquoteAux (s.data.length + 1) s.data []⟩

/-! ## Python `str.splitlines` -/

/-- The line-boundary characters recognised by Python `str.splitlines`. -/
def pyIsLineBoundary (c : Char) : Bool :=
  c == '\n' || c == '\r' || c == '\x0b' || c == '\x0c' ||
  c == '\x1c' || c == '\x1d' || c == '\x1e' || c == '\x85' ||
  c == '\u2028' || c == '\u2029'

/-- Worker for `pySplitlines`; `acc` holds the current line reversed. -/
def pySplitlinesAux (acc : List Char) : List Char → List String
  | [] => if acc.isEmpty then [] else [⟨acc.reverse⟩]
  | '\r' :: '\n' :: rest => (⟨acc.reverse⟩ : String) :: pySplitlinesAux [] rest
  | c :: rest =>
    if pyIsLineBoundary c then (⟨acc.reverse⟩ : String) :: pySplitlinesAux [] rest
    else pySplitlinesAux (c :: acc) rest

/-- Python `str.splitlines()`: line terminators are dropped and a trailing
terminator does not produce a final empty line. -/
def pySplitlines (s : String) : List String := pySplitlinesAux [] s.data

/-! ## JSON values, parsing and serialization

Python `json.loads` values are modelled by `JVal`. A float literal is kept
as its exact decimal value `mantissa * 10 ^ exp10` rather than the IEEE-754
double Python would produce; no claim in this development depends on float
arithmetic or float printing, only on whether a line parses and on the
string/object/array structure of the result. A lone surrogate `\uXXXX`
escape, which Python would keep as an unpaired surrogate code unit, is
replaced by U+FFFD because Lean characters are Unicode scalar values. -/

inductive JVal where
  | null : JVal
  | bool (b : Bool) : JVal
  | int (n : Int) : JVal
  | float (mantissa : Int) (exp10 : Int) : JVal
  | nan : JVal
  | inf (neg : Bool) : JVal
  | str (s : String) : JVal
  | arr (elems : List JVal) : JVal
  | obj (fields : List (String × JVal)) : JVal

/-- Python `dict.get` on the association list of an object: duplicate keys
resolve to the last occurrence, matching `json.loads` semantics. -/
def dget (kvs : List (String × JVal)) (k : String) : Option JVal :=
  match kvs.reverse.find? (fun kv => kv.1 == k) with
  | some kv => some kv.2
  | none => none

/-- The whitespace characters JSON allows between tokens. -/
def jsonWs (c : Char) : Bool := c == ' ' || c == '\t' || c == '\n' || c == '\r'

/-- Skips JSON whitespace. -/
def skipJsonWs (l : List Char) : List Char := l.dropWhile jsonWs

/-- Whether a character is an ASCII digit. -/
def isDigitCh (c : Char) : Bool := '0' ≤ c && c ≤ '9'

/-- Splits off a maximal run of ASCII digits. -/
def takeDigits (l : List Char) : List Char × List Char :=
  (l.takeWhile isDigitCh, l.dropWhile isDigitCh)

/-- Numeric value of a digit run. -/
def digitsToNat (ds : List Char) : Nat := ds.foldl (fun a c => a * 10 + (c.toNat - 48)) 0

/-- Parses exactly four hexadecimal digits. -/
def parseHex4 : List Char → Option (Nat × List Char)
  | a :: b :: c :: d :: rest =>
    match hexDigitVal a, hexDigitVal b, hexDigitVal c, hexDigitVal d with
    | some x, some y, some z, some w => some (((x * 16 + y) * 16 + z) * 16 + w, rest)
    | _, _, _, _ => none
  | _ => none

/-- Parses the body of a JSON string literal, the opening quote already
consumed. Follows strict `json.loads` rules: raw control characters and
unknown escapes are rejected; surrogate pairs combine. -/
def parseJStrAux (fuel : Nat) (acc : List Char) (l : List Char) : Option (String × List Char) :=
  match fuel with
  | 0 => none
  | fuel + 1 =>
    match l with
    | [] => none
    | '"' :: rest => some (⟨acc.reverse⟩, rest)
    | '\\' :: e :: rest =>
      match e with
      | '"' => parseJStrAux fuel ('"' :: acc) rest
      | '\\' => parseJStrAux fuel ('\\' :: acc) rest
      | '/' => parseJStrAux fuel ('/' :: acc) rest
      | 'b' => parseJStrAux fuel ('\x08' :: acc) rest
      | 'f' => parseJStrAux fuel ('\x0c' :: acc) rest
      | 'n' => parseJStrAux fuel ('\n' :: acc) rest
      | 'r' => parseJStrAux fuel ('\r' :: acc) rest
      | 't' => parseJStrAux fuel ('\t' :: acc) rest
      | 'u' =>
        match parseHex4 rest with
        | none => none
        | some (n, rest2) =>
          if 0xD800 ≤ n ∧ n ≤ 0xDBFF then
            match rest2 with
            | '\\' :: 'u' :: rest3 =>
              match parseHex4 rest3 with
              | some (m, rest4) =>
                if 0xDC00 ≤ m ∧ m ≤ 0xDFFF then
                  parseJStrAux fuel
                    (Char.ofNat (0x10000 + (n - 0xD800) * 0x400 + (m - 0xDC00)) :: acc) rest4
                else parseJStrAux fuel ('�' :: acc) rest2
              | none => parseJStrAux fuel ('�' :: acc) rest2
            | _ => parseJStrAux fuel ('�' :: acc) rest2
          else if 0xDC00 ≤ n ∧ n ≤ 0xDFFF then parseJStrAux fuel ('�' :: acc) rest2
          else parseJStrAux fuel (Char.ofNat n :: acc) rest2
      | _ => none
    | c :: rest => if c.toNat < 0x20 then none else parseJStrAux fuel (c :: acc) rest

/-- Parses a JSON number per the grammar `json.loads` accepts: optional
minus, integer part without leading zeros, optional fraction, optional
exponent. Pure integers become `JVal.int`, anything with a fraction or
exponent becomes `JVal.float`. -/
def parseNumber (l : List Char) : Option (JVal × List Char) :=
  let signSplit : Bool × List Char :=
    match l with
    | '-' :: r => (true, r)
    | _ => (false, l)
  let neg := signSplit.1
  let l1 := signSplit.2
  match takeDigits l1 with
  | ([], _) => none
  | (d :: ds, l2) =>
    if d == '0' && !ds.isEmpty then none
    else
      let intDigits := d :: ds
      let fracRes : Option (List Char × List Char) :=
        match l2 with
        | '.' :: l3 =>
          match takeDigits l3 with
          | ([], _) => none
          | (fs, l4) => some (fs, l4)
        | _ => some ([], l2)
      match fracRes with
      | none => none
      | some (fs, l4) =>
        let expRes : Option (Option Int × List Char) :=
          match l4 with
          | 'e' :: l5 | 'E' :: l5 =>
            let signSplit2 : Int × List Char :=
              match l5 with
              | '+' :: r => (1, r)
              | '-' :: r => (-1, r)
              | _ => (1, l5)
            match takeDigits signSplit2.2 with
            | ([], _) => none
            | (es, l7) => some (some (signSplit2.1 * (digitsToNat es : Int)), l7)
          | _ => some (none, l4)
        match expRes with
        | none => none
        | some (expOpt, lrest) =>
          if fs.isEmpty ∧ expOpt.isNone then
            some (JVal.int (if neg then -(digitsToNat intDigits : Int) else (digitsToNat intDigits : Int)), lrest)
          else
            let mantissa : Int := (digitsToNat (intDigits ++ fs) : Int)
            some (JVal.float (if neg then -mantissa else mantissa)
              ((expOpt.getD 0) - (fs.length : Int)), lrest)

/-- Consumes the literal `lit` from the front of `l`. -/
def expectLit (lit : List Char) (l : List Char) : Option (List Char) :=
  if lit.isPrefixOf l then some (l.drop lit.length) else none

mutual

/-- Fueled recursive-descent parser for one JSON value, mirroring what
`json.loads` accepts (including the non-standard `NaN`, `Infinity` and
`-Infinity` constants Python allows by default). -/
def parseJVal (fuel : Nat) (l : List Char) : Option (JVal × List Char) :=
  match fuel with
  | 0 => none
  | fuel + 1 =>
    let l := skipJsonWs l
    match l with
    | '"' :: rest => (parseJStrAux fuel [] rest).map (fun sr => (JVal.str sr.1, sr.2))
    | '\x7b' :: rest =>
      let r := skipJsonWs rest
      match r with
      | '\x7d' :: r2 => some (JVal.obj [], r2)
      | _ => parseJObjPairs fuel r []
    | '[' :: rest =>
      let r := skipJsonWs rest
      match r with
      | ']' :: r2 => some (JVal.arr [], r2)
      | _ => parseJArrElems fuel r []
    | 't' :: _ => (expectLit "true".data l).map (fun r => (JVal.bool true, r))
    | 'f' :: _ => (expectLit "false".data l).map (fun r => (JVal.bool false, r))
    | 'n' :: _ => (expectLit "null".data l).map (fun r => (JVal.null, r))
    | 'N' :: _ => (expectLit "NaN".data l).map (fun r => (JVal.nan, r))
    | 'I' :: _ => (expectLit "Infinity".data l).map (fun r => (JVal.inf false, r))
    | '-' :: 'I' :: _ => (expectLit "-Infinity".data l).map (fun r => (JVal.inf true, r))
    | _ => parseNumber l

/-- Parses the elements of a non-empty JSON array, the opening bracket
already consumed. -/
def parseJArrElems (fuel : Nat) (l : List Char) (acc : List JVal) : Option (JVal × List Char) :=
  match fuel with
  | 0 => none
  | fuel + 1 =>
    match parseJVal fuel l with
    | none => none
    | some (v, r) =>
      match skipJsonWs r with
      | ',' :: r2 => parseJArrElems fuel r2 (v :: acc)
      | ']' :: r2 => some (JVal.arr (v :: acc).reverse, r2)
      | _ => none

/-- Parses the members of a non-empty JSON object, the opening brace
already consumed and whitespace skipped. -/
def parseJObjPairs (fuel : Nat) (l : List Char) (acc : List (String × JVal)) :
    Option (JVal × List Char) :=
  match fuel with
  | 0 => none
  | fuel + 1 =>
    match l with
    | '"' :: rest =>
      match parseJStrAux fuel [] rest with
      | none => none
      | some (k, r) =>
        match skipJsonWs r with
        | ':' :: r2 =>
          match parseJVal fuel r2 with
          | none => none
          | some (v, r3) =>
            match skipJsonWs r3 with
            | ',' :: r4 => parseJObjPairs fuel (skipJsonWs r4) ((k, v) :: acc)
            | '\x7d' :: r4 => some (JVal.obj ((k, v) :: acc).reverse, r4)
            | _ => none
        | _ => none
    | _ => none

end

/-- Python `json.loads`: parses the whole input as one JSON value,
rejecting trailing garbage; `none` models a raised `JSONDecodeError`. -/
def pyJsonLoads (s : String) : Option JVal :=
  match parseJVal (2 * s.data.length + 4) s.data with
  | some (v, rest) => if (skipJsonWs rest).isEmpty then some v else none
  | none => none

/-- Four lowercase hexadecimal digits of `n % 0x10000`. -/
def uhex4 (n : Nat) : String :=
  let d (k : Nat) : Char :=
    let v := k % 16
    if v < 10 then Char.ofNat (48 + v) else Char.ofNat (87 + v)
  ⟨[d (n / 4096), d (n / 256), d (n / 16), d n]⟩

/-- Escaping of one character by `json.dumps`: with `ascii` set, everything
outside the printable ASCII range is escaped (astral characters as a
surrogate pair); without it only the quote, the backslash and control
characters are. -/
def escapeJChar (ascii : Bool) (c : Char) : List Char :=
  if c == '"' then ['\\', '"']
  else if c == '\\' then ['\\', '\\']
  else if c == '\n' then ['\\', 'n']
  else if c == '\t' then ['\\', 't']
  else if c == '\r' then ['\\', 'r']
  else if c == '\x08' then ['\\', 'b']
  else if c == '\x0c' then ['\\', 'f']
  else if c.toNat < 0x20 then '\\' :: 'u' :: (uhex4 c.toNat).data
  else if ascii && c.toNat > 0x7e then
    if c.toNat ≥ 0x10000 then
      let v := c.toNat - 0x10000
      ('\\' :: 'u' :: (uhex4 (0xD800 + v / 0x400)).data) ++
        ('\\' :: 'u' :: (uhex4 (0xDC00 + v % 0x400)).data)
    else '\\' :: 'u' :: (uhex4 c.toNat).data
  else [c]

/-- `json.dumps` rendering of a string literal, including its quotes. -/
def dumpJStr (ascii : Bool) (s : String) : String :=
  ⟨'"' :: s.data.foldr (fun c acc => escapeJChar ascii c ++ acc) ['"']⟩

mutual

/-- `json.dumps` with default separators (`", "` and `": "`); the `ascii`
flag is `ensure_ascii`. Floats are rendered as `<mantissa>e<exp10>` rather
than the shortest-roundtrip decimal Python would print; no value serialized
by the bridge under verification contains a float. -/
def dumpJVal (ascii : Bool) : JVal → String
  | .null => "null"
  | .bool true => "true"
  | .bool false => "false"
  | .int n => toString n
  | .float m e => toString m ++ "e" ++ toString e
  | .nan => "NaN"
  | .inf false => "Infinity"
  | .inf true => "-Infinity"
  | .str s => dumpJStr ascii s
  | .arr xs => "[" ++ dumpJArr ascii xs ++ "]"
  | .obj kvs => "\x7b" ++ dumpJObj ascii kvs ++ "\x7d"

/-- Comma-separated rendering of array elements. -/
def dumpJArr (ascii : Bool) : List JVal → String
  | [] => ""
  | [x] => dumpJVal ascii x
  | x :: xs => dumpJVal ascii x ++ ", " ++ dumpJArr ascii xs

/-- Comma-separated rendering of object members. -/
def dumpJObj (ascii : Bool) : List (String × JVal) → String
  | [] => ""
  | [(k, v)] => dumpJStr ascii k ++ ": " ++ dumpJVal ascii v
  | (k, v) :: kvs => dumpJStr ascii k ++ ": " ++ dumpJVal ascii v ++ ", " ++ dumpJObj ascii kvs

end

/-! ## `OrderAgentA2ATool._extract_runtime_arn_from_agent_url` -/

/-- The stable-identifier detection used by the bridge. -/
def arnPrefixStr : String := "arn:aws:bedrock-agentcore:"

/-- The path marker searched for in AgentCore runtime URLs. -/
def runtimesMarker : String := "/runtimes/"

/-- The invocation path suffix of AgentCore runtime URLs. -/
def invocationsStr : String := "/invocations"

/-- Embedding of `OrderAgentA2ATool._extract_runtime_arn_from_agent_url`:
strips the URL, keeps it when it already starts with the ARN scheme, and
otherwise percent-decodes the part between `/runtimes/` and `/invocations`
when the marker occurs and that part is non-empty. -/
def extract_runtime_arn_from_agent_url (agent_url : String) : Option String :=
  let url := pyStrip agent_url
  if url = "" then none
  else if pyStartsWith arnPrefixStr url then some url
  else if !containsSub runtimesMarker url then none
  else
    match afterFirst runtimesMarker url with
    | none => none
    | some rest =>
      let encoded := beforeFirst invocationsStr rest
      if encoded = "" then none else some (pyUnquote encoded)

/-! ## `OrderAgentA2ATool._extract_first_artifact_text` -/

/-- The per-candidate extraction step of
`_extract_first_artifact_text`: follows the Python loop body, skipping the
candidate (returning `none`) whenever one of the `isinstance`/emptiness
checks fails, and producing `result.artifacts[0].parts[0].text` when all
checks pass. -/
def tryArtifactText (kvs : List (String × JVal)) : Option String :=
  match dget kvs "result" with
  | some (.obj r) =>
    match dget r "artifacts" with
    | some (.arr (a0 :: _)) =>
      match a0 with
      | .obj sel =>
        match dget sel "parts" with
        | some (.arr (p0 :: _)) =>
          match p0 with
          | .obj pd =>
            match dget pd "text" with
            | some (.str t) => some t
            | _ => none
          | _ => none
        | _ => none
      | _ => none
    | _ => none
  | _ => none

/-- The candidate-collection loop of `_extract_first_artifact_text`: each
line is stripped, blank lines are skipped, the rest are parsed as JSON and
only dictionaries are kept, in line order. -/
def jsonCandidates : List String → List (List (String × JVal))
  | [] => []
  | line :: rest =>
    let s := pyStrip line
    if s = "" then jsonCandidates rest
    else
      match pyJsonLoads s with
      | some (.obj kvs) => kvs :: jsonCandidates rest
      | _ => jsonCandidates rest

/-- The reversed scan of `_extract_first_artifact_text`: first candidate
(of the already-reversed list) yielding an artifact text wins. -/
def scanForArtifactText : List (List (String × JVal)) → Option String
  | [] => none
  | kvs :: rest =>
    match tryArtifactText kvs with
    | some t => some t
    | none => scanForArtifactText rest

/-- Embedding of `OrderAgentA2ATool._extract_first_artifact_text`. -/
def extract_first_artifact_text (jsonrpc_text : String) : String :=
  match scanForArtifactText (jsonCandidates (pySplitlines jsonrpc_text)).reverse with
  | some t => t
  | none => jsonrpc_text

/-! ## Bridge state, configuration and effects -/

/-- The environment variables the bridge reads. `none` is an unset
variable; an empty string models a variable set to the empty value, which
Python truthiness treats like an unset one. -/
structure Env where
  orderAgentRuntimeArn : Option String
  approvalStateMachineArn : Option String
  approvalApproverEmail : Option String
deriving Repr, DecidableEq

/-- Python truthiness of an optional environment value. -/
def pyTruthyOpt : Option String → Bool
  | some s => !(s == "")
  | none => false

/-- The mutable fields of `OrderAgentA2ATool` relevant to initialization
and invocation. -/
structure ToolState where
  agentUrl : String
  agentName : String
  inited : Bool
  runtimeArn : Option String
  clientCreated : Bool
deriving Repr, DecidableEq

/-- One text part of an A2A message. -/
structure MsgPart where
  kind : String
  text : String
deriving Repr, DecidableEq

/-- The `params.message` object of a `message/send` request. -/
structure A2AMessage where
  role : String
  parts : List MsgPart
  messageId : String
deriving Repr, DecidableEq

/-- The JSON-RPC request envelope the bridge sends. -/
structure JsonRpcRequest where
  jsonrpc : String
  id : String
  method : String
  message : A2AMessage
deriving Repr, DecidableEq

/-- Side effects a capability can perform against the outside world. -/
inductive Effect where
  | createClient (service : String) : Effect
  | invokeRuntime (runtimeArn : String) (request : JsonRpcRequest) : Effect
  | startExecution (stateMachineArn : String) (name : String) (input : String) : Effect
deriving Repr, DecidableEq

/-- Whether an effect is a signed transport invocation. -/
def Effect.isInvoke : Effect → Bool
  | .invokeRuntime _ _ => true
  | _ => false

/-- Outcome oracle for `invoke_agent_runtime`: given the request, either
the decoded response body text, or the message of the exception the call
raised (covering transport failures and a missing response body alike). -/
def TransportOracle : Type := JsonRpcRequest → Except String String

/-- Response of a successful Step Functions `start_execution` call. -/
structure SfnResp where
  executionArn : String
  startDateIso : String
deriving Repr, DecidableEq

/-- Outcome oracle for the Step Functions client: given state machine ARN,
execution name and input, either the response or the message of the raised
exception (covering client construction failures as well). -/
def SfnOracle : Type := String → String → String → Except String SfnResp

/-- The error message raised when no runtime ARN can be determined. -/
def initMissingArnMsg : String :=
  "Order Agent runtime ARN is missing. Set ORDER_AGENT_RUNTIME_ARN or provide ORDER_AGENT_URL in /runtimes/\x7barn\x7d/invocations format."

/-- The `or`-chain `os.environ.get("ORDER_AGENT_RUNTIME_ARN") or
self._extract_runtime_arn_from_agent_url(self.agent_url)`: the environment
value wins when truthy, otherwise URL resolution is used. -/
def runtimeArnChoice (env : Env) (url : String) : Option String :=
  match env.orderAgentRuntimeArn with
  | some s => if s ≠ "" then some s else extract_runtime_arn_from_agent_url url
  | none => extract_runtime_arn_from_agent_url url

/-- Embedding of `OrderAgentA2ATool._ensure_initialized`. The boto3
client construction outcome is supplied by `clientRes`. On any failure the
method re-raises, modelled as `Except.error`. -/
def ensureInitialized (st : ToolState) (env : Env) (clientRes : Except String Unit) :
    Except String (ToolState × List Effect) :=
  if st.inited then .ok (st, [])
  else
    match runtimeArnChoice env st.agentUrl with
    | none => .error initMissingArnMsg
    | some arn =>
      if arn = "" then .error initMissingArnMsg
      else
        match clientRes with
        | .error e => .error e
        | .ok _ =>
          .ok ({ st with inited := true, runtimeArn := some arn, clientCreated := true },
            [Effect.createClient "bedrock-agentcore"])

/-- Embedding of `OrderAgentA2ATool._invoke_jsonrpc_sync` as used inside a
capability `try` block: the guard raise when the client is not initialized,
then the signed data-plane call whose outcome the oracle supplies, logged
as an `invokeRuntime` effect. -/
def invokeJsonrpcSync (st : ToolState) (tr : TransportOracle) (req : JsonRpcRequest) :
    Except String String × List Effect :=
  match st.runtimeArn with
  | none => (.error "Order Agent A2A client is not initialized", [])
  | some arn =>
    if st.clientCreated then (tr req, [Effect.invokeRuntime arn req])
    else (.error "Order Agent A2A client is not initialized", [])

/-- The JSON-RPC envelope built by every transport capability; `u1` and
`u2` are the two fresh `uuid4().hex` draws of the call. -/
def buildMessageSendRequest (u1 u2 queryText : String) : JsonRpcRequest :=
  { jsonrpc := "2.0"
    id := "req-" ++ u1
    method := "message/send"
    message :=
      { role := "user"
        parts := [{ kind := "text", text := queryText }]
        messageId := "msg-" ++ u2 } }

/-! ## The four Tool Bridge capabilities -/

/-- The query text of `list_waiting_receipt_orders_by_sku`. -/
def listWaitingQueryText (sku : String) : String :=
  "List WAITING_RECEIPT orders for SKU: " ++ sku

/-- Embedding of `OrderAgentA2ATool.list_waiting_receipt_orders_by_sku`.
Note `_ensure_initialized` is awaited before the `try` block, so its
exception propagates; everything inside the `try` is converted to an error
string. -/
def list_waiting_receipt_orders_by_sku (st : ToolState) (env : Env)
    (clientRes : Except String Unit) (tr : TransportOracle) (u1 u2 : String)
    (sku : String) : Except String (String × List Effect) :=
  match ensureInitialized st env clientRes with
  | .error e => .error e
  | .ok (st', eff0) =>
    if sku = "" ∨ pyStrip sku = "" then .ok ("Error: SKU parameter is required", eff0)
    else
      let req := buildMessageSendRequest u1 u2 (listWaitingQueryText sku)
      match invokeJsonrpcSync st' tr req with
      | (.error e, eff1) =>
        .ok ("Error contacting " ++ st'.agentName ++ " via A2A: " ++ e, eff0 ++ eff1)
      | (.ok raw, eff1) =>
        let response_text := extract_first_artifact_text raw
        if response_text ≠ "" then .ok (response_text, eff0 ++ eff1)
        else .ok ("No response received from " ++ st'.agentName, eff0 ++ eff1)

/-- The item-validation loop of `create_order_registration`, with `idx`
the running index of `enumerate`. A Python `bool` is an instance of `int`
(with `True = 1`, `False = 0`), which the `qty` check inherits. -/
def validateItems (idx : Nat) : List JVal → Option String
  | [] => none
  | item :: rest =>
    match item with
    | .obj kvs =>
      if (dget kvs "sku").isNone ∨ (dget kvs "qty").isNone then
        some ("Error: items[" ++ toString idx ++ "] must contain both \x27sku\x27 and \x27qty\x27 keys")
      else
        match dget kvs "qty" with
        | some (.int n) =>
          if n ≤ 0 then
            some ("Error: items[" ++ toString idx ++ "].qty must be a positive integer")
          else validateItems (idx + 1) rest
        | some (.bool b) =>
          if (if b then (1 : Int) else 0) ≤ 0 then
            some ("Error: items[" ++ toString idx ++ "].qty must be a positive integer")
          else validateItems (idx + 1) rest
        | _ => some ("Error: items[" ++ toString idx ++ "].qty must be a positive integer")
    | _ =>
      some ("Error: items[" ++ toString idx ++ "] must be a dictionary with \x27sku\x27 and \x27qty\x27 keys")

/-- The parameter validation prologue of `create_order_registration`
(the `isinstance(items, list)` check is discharged by the type of
`items`). -/
def validateCreateOrder (supplier_id : String) (items : List JVal) : Option String :=
  if supplier_id = "" ∨ pyStrip supplier_id = "" then
    some "Error: supplier_id parameter is required"
  else if items.isEmpty then
    some "Error: items parameter is required and must be a non-empty list"
  else validateItems 0 items

/-- The `order_data` dictionary of `create_order_registration`: the `note`
key is present exactly when `note` is truthy (a non-empty string). -/
def orderDataFields (supplier_id : String) (items : List JVal) (note : String) :
    List (String × JVal) :=
  [("supplierId", JVal.str supplier_id), ("items", JVal.arr items)] ++
    (if note ≠ "" then [("note", JVal.str note)] else [])

/-- The query text of `create_order_registration`: the order data
serialized by `json.dumps(..., ensure_ascii=False)` embedded in a natural
language instruction. -/
def createOrderQueryText (supplier_id : String) (items : List JVal) (note : String) : String :=
  "Create order registration with data: " ++
    dumpJVal false (JVal.obj (orderDataFields supplier_id items note))

/-- Embedding of `OrderAgentA2ATool.create_order_registration`. -/
def create_order_registration (st : ToolState) (env : Env)
    (clientRes : Except String Unit) (tr : TransportOracle) (u1 u2 : String)
    (supplier_id : String) (items : List JVal) (note : String) :
    Except String (String × List Effect) :=
  match ensureInitialized st env clientRes with
  | .error e => .error e
  | .ok (st', eff0) =>
    match validateCreateOrder supplier_id items with
    | some msg => .ok (msg, eff0)
    | none =>
      let req := buildMessageSendRequest u1 u2 (createOrderQueryText supplier_id items note)
      match invokeJsonrpcSync st' tr req with
      | (.error e, eff1) =>
        .ok ("Error registering order via " ++ st'.agentName ++ " A2A: " ++ e, eff0 ++ eff1)
      | (.ok raw, eff1) =>
        let response_text := extract_first_artifact_text raw
        if response_text ≠ "" then .ok (response_text, eff0 ++ eff1)
        else .ok ("No response received from " ++ st'.agentName ++ " for order registration",
          eff0 ++ eff1)

/-- The query text of `process_approved_order`. -/
def processApprovedQueryText (order_id : String) : String :=
  "注文番号 " ++ order_id ++
    " が承認されました。finalize_approved_order ツールを使用して正式な発注処理を実行してください。"

/-- Embedding of `OrderAgentA2ATool.process_approved_order`. -/
def process_approved_order (st : ToolState) (env : Env)
    (clientRes : Except String Unit) (tr : TransportOracle) (u1 u2 : String)
    (order_id : String) : Except String (String × List Effect) :=
  match ensureInitialized st env clientRes with
  | .error e => .error e
  | .ok (st', eff0) =>
    if order_id = "" ∨ pyStrip order_id = "" then
      .ok ("Error: order_id parameter is required", eff0)
    else
      let req := buildMessageSendRequest u1 u2 (processApprovedQueryText order_id)
      match invokeJsonrpcSync st' tr req with
      | (.error e, eff1) =>
        .ok ("Error processing approved order via " ++ st'.agentName ++ " A2A: " ++ e,
          eff0 ++ eff1)
      | (.ok raw, eff1) =>
        let response_text := extract_first_artifact_text raw
        if response_text ≠ "" then .ok (response_text, eff0 ++ eff1)
        else .ok ("No response received from " ++ st'.agentName ++ " for order processing",
          eff0 ++ eff1)

/-- The unique execution name `approval-<orderId>-<suffix>` submitted to
Step Functions; the suffix passed by the capability is `uuid4().hex[:8]`. -/
def approvalExecName (order_id suffix : String) : String :=
  "approval-" ++ order_id ++ "-" ++ suffix

/-- The Step Functions input `json.dumps({"orderId": ..., "approverEmail": ...})`. -/
def approvalExecInput (order_id approver_email : String) : String :=
  dumpJVal true (JVal.obj [("orderId", JVal.str order_id),
    ("approverEmail", JVal.str approver_email)])

/-- The success message of `start_approval_workflow`. -/
def approvalSuccessMsg (order_id approver_email execution_arn start_date : String) : String :=
  "✅ 承認ワークフローを開始しました\n\n" ++
    "**発注番号**: " ++ order_id ++ "\n" ++
    "**承認者**: " ++ approver_email ++ "\n" ++
    "**実行ARN**: " ++ execution_arn ++ "\n" ++
    "**開始時刻**: " ++ start_date ++ "\n\n" ++
    "承認者に承認リンクを含むメールが送信されます。\n" ++
    "承認者がリンクをクリックして承認または却下を選択するまで、ワークフローは待機状態になります。"

/-- Embedding of `OrderAgentA2ATool.start_approval_workflow`; `u` is the
fresh `uuid4().hex` draw of the call. This capability does not call
`_ensure_initialized` and catches every exception of its `try` block, so
it always returns a string. -/
def start_approval_workflow (env : Env) (sfn : SfnOracle) (u : String)
    (order_id : String) : Except String (String × List Effect) :=
  if order_id = "" ∨ pyStrip order_id = "" then
    .ok ("Error: order_id parameter is required", [])
  else
    match env.approvalStateMachineArn with
    | none => .ok ("Error: APPROVAL_STATE_MACHINE_ARN environment variable is not set", [])
    | some smArn =>
      if smArn = "" then
        .ok ("Error: APPROVAL_STATE_MACHINE_ARN environment variable is not set", [])
      else
        match env.approvalApproverEmail with
        | none => .ok ("Error: APPROVAL_APPROVER_EMAIL environment variable is not set", [])
        | some email =>
          if email = "" then
            .ok ("Error: APPROVAL_APPROVER_EMAIL environment variable is not set", [])
          else
            let name := approvalExecName order_id (pyTake 8 u)
            let input := approvalExecInput order_id email
            let effs := [Effect.createClient "stepfunctions",
              Effect.startExecution smArn name input]
            match sfn smArn name input with
            | .error e => .ok ("❌ 承認ワークフローの開始に失敗しました: " ++ e, effs)
            | .ok resp =>
              .ok (approvalSuccessMsg order_id email resp.executionArn resp.startDateIso, effs)

/-! ## `create_order_agent_a2a_tool._normalize_agentcore_a2a_base_url` -/

/-- Embedding of `_normalize_agentcore_a2a_base_url`: strip, drop the
query string, drop trailing slashes, then cut at the first `/invocations`
(or append it when absent). -/
def normalize_agentcore_a2a_base_url (url : String) : String :=
  let normalized := pyStrip url
  let normalized := beforeQuery normalized
  let normalized := rstripSlash normalized
  if containsSub invocationsStr normalized then
    beforeFirst invocationsStr normalized ++ invocationsStr
  else normalized ++ invocationsStr

/-! ## Supporting lemmas about the string helpers -/

theorem isPrefixOf_iff {α : Type} [BEq α] [LawfulBEq α] {l m : List α} :
    l.isPrefixOf m = true ↔ l <+: m :=
  List.isPrefixOf_iff_prefix

theorem reverse_prefix_iff {α : Type} {l m : List α} :
    l.reverse <+: m.reverse ↔ l <:+ m :=
  List.reverse_prefix

theorem takeWhile_pref {α : Type} (p : α → Bool) (l : List α) : l.takeWhile p <+: l :=
  List.takeWhile_prefix p

theorem strAppendLeftCancel {a b c : String} (h : a ++ b = a ++ c) : b = c := by
  apply String.ext
  have hd := congrArg String.data h
  rw [String.data_append, String.data_append] at hd
  exact List.append_cancel_left hd

theorem splitOnceAux_append {pat : List Char} :
    ∀ {s p r : List Char}, splitOnceAux pat s = some (p, r) → s = p ++ pat ++ r := by
  intro s
  induction s with
  | nil =>
    intro p r h
    simp only [splitOnceAux] at h
    split at h
    · rename_i hpre
      obtain ⟨t, ht⟩ := isPrefixOf_iff.mp hpre
      cases h
      simp_all
    · exact absurd h (by simp)
  | cons c t ih =>
    intro p r h
    simp only [splitOnceAux] at h
    split at h
    · rename_i hpre
      obtain ⟨u, hu⟩ := isPrefixOf_iff.mp hpre
      cases h
      rw [← hu, List.nil_append, List.drop_left]
    · rename_i hpre
      match heq : splitOnceAux pat t with
      | none => rw [heq] at h; exact absurd h (by simp)
      | some (p', r') =>
        rw [heq] at h
        simp only [Option.map_some'] at h
        cases h
        have := ih heq
        simp [this]

theorem splitOnceAux_none_no_pat {pat : List Char} :
    ∀ {s : List Char}, splitOnceAux pat s = none → ¬ pat <:+: s := by
  intro s
  induction s with
  | nil =>
    intro h hin
    rw [List.infix_nil] at hin
    subst hin
    simp [splitOnceAux, List.isPrefixOf] at h
  | cons c t ih =>
    intro h hin
    simp only [splitOnceAux] at h
    split at h
    · exact absurd h (by simp)
    · rename_i hpre
      rcases List.infix_cons_iff.mp hin with hp | hi
      · exact hpre (isPrefixOf_iff.mpr hp)
      · match heq : splitOnceAux pat t with
        | some pr => rw [heq] at h; exact absurd h (by simp)
        | none => exact ih heq hi

theorem splitOnceAux_some_no_pat_before {pat : List Char} (hne : pat ≠ []) :
    ∀ {s p r : List Char}, splitOnceAux pat s = some (p, r) → ¬ pat <:+: p := by
  intro s
  induction s with
  | nil =>
    intro p r h
    simp only [splitOnceAux] at h
    split at h
    · rename_i hpre
      cases h
      intro hin
      rw [List.infix_nil] at hin
      exact hne hin
    · exact absurd h (by simp)
  | cons c t ih =>
    intro p r h
    simp only [splitOnceAux] at h
    split at h
    · cases h
      intro hin
      rw [List.infix_nil] at hin
      exact hne hin
    · rename_i hpre
      match heq : splitOnceAux pat t with
      | none => rw [heq] at h; exact absurd h (by simp)
      | some (p', r') =>
        rw [heq] at h
        simp only [Option.map_some'] at h
        cases h
        intro hin
        rcases List.infix_cons_iff.mp hin with hp | hi
        · -- a prefix of `c :: p'` is a prefix of `c :: t`, contradicting the branch
          have hp't : p' <+: t := by
            have hs := splitOnceAux_append heq
            exact ⟨pat ++ r, by rw [hs]; simp [List.append_assoc]⟩
          have hcp : c :: p' <+: c :: t := by
            rw [List.cons_prefix_cons]
            exact ⟨rfl, hp't⟩
          exact hpre (isPrefixOf_iff.mpr (hp.trans hcp))
        · exact ih heq hi

theorem splitOnceAux_append_pat_self {pat : List Char} (hne : pat ≠ [])
    (hov : ∀ k, k < pat.length → 0 < k → pat.drop k ≠ pat.take (pat.length - k)) :
    ∀ {p : List Char}, ¬ pat <:+: p → splitOnceAux pat (p ++ pat) = some (p, []) := by
  intro p
  induction p with
  | nil =>
    intro _
    rw [List.nil_append]
    match pat, hne with
    | c :: t, _ =>
      simp only [splitOnceAux]
      rw [if_pos (isPrefixOf_iff.mpr (List.prefix_refl _))]
      simp
  | cons x p' ih =>
    intro hnin
    have hnin' : ¬ pat <:+: p' := fun h => hnin (List.infix_cons h)
    have hnpre : ¬ pat <+: x :: (p' ++ pat) := by
      intro hp
      by_cases hlen : pat.length ≤ (x :: p').length
      · have h1 : pat <+: (x :: p') ++ pat := by rw [List.cons_append]; exact hp
        have h2 : x :: p' <+: (x :: p') ++ pat := List.prefix_append _ _
        have hppre : pat <+: x :: p' := List.prefix_of_prefix_length_le h1 h2 hlen
        exact hnin hppre.isInfix
      · push_neg at hlen
        set k := (x :: p').length with hk
        obtain ⟨u, hu⟩ := hp
        have hkle : k ≤ pat.length := Nat.le_of_lt hlen
        have htake : pat.take k = x :: p' := by
          have h1 := congrArg (List.take k) hu
          rw [List.take_append_of_le_length hkle] at h1
          have hrhs : (x :: (p' ++ pat)).take k = x :: p' := by
            rw [← List.cons_append, hk, List.take_left]
          rw [hrhs] at h1
          exact h1
        have hdrop : pat.drop k ++ u = pat := by
          have h2 := congrArg (List.drop k) hu
          rw [List.drop_append_of_le_length hkle] at h2
          have hrhs2 : (x :: (p' ++ pat)).drop k = pat := by
            rw [← List.cons_append, hk, List.drop_left]
          rw [hrhs2] at h2
          exact h2
        have hfinal : pat.drop k = pat.take (pat.length - k) := by
          have h3 := congrArg (List.take (pat.length - k)) hdrop
          have hlen2 : pat.length - k ≤ (pat.drop k).length := by
            rw [List.length_drop]
          rw [List.take_append_of_le_length hlen2] at h3
          have htakeall : (pat.drop k).take (pat.length - k) = pat.drop k := by
            rw [show pat.length - k = (pat.drop k).length from (List.length_drop k pat).symm,
              List.take_length]
          rw [htakeall] at h3
          exact h3
        exact hov k hlen (by simp [hk]) hfinal
    show splitOnceAux pat (x :: (p' ++ pat)) = some (x :: p', [])
    have hbfalse : pat.isPrefixOf (x :: (p' ++ pat)) = false :=
      Bool.eq_false_iff.mpr (fun hb => hnpre (isPrefixOf_iff.mp hb))
    simp [splitOnceAux, hbfalse, ih hnin']

theorem invocations_no_self_overlap :
    ∀ k, k < invocationsStr.data.length → 0 < k →
      invocationsStr.data.drop k ≠ invocationsStr.data.take (invocationsStr.data.length - k) := by
  decide

theorem dropWhile_cons_head {α : Type} {p : α → Bool} :
    ∀ {l : List α} {c : α} {cs : List α}, l.dropWhile p = c :: cs → p c = false := by
  intro l
  induction l with
  | nil => intro c cs h; simp [List.dropWhile] at h
  | cons a t ih =>
    intro c cs h
    rw [List.dropWhile_cons] at h
    split at h
    · exact ih h
    · rename_i ha
      cases h
      exact Bool.eq_false_iff.mpr ha

theorem prefix_head_eq {α : Type} {l m : List α} (h : l <+: m) {c : α} {cs : List α}
    (hl : l = c :: cs) : ∃ ds, m = c :: ds := by
  obtain ⟨t, ht⟩ := h
  exact ⟨cs ++ t, by rw [← ht, hl, List.cons_append]⟩

theorem reverse_dropWhile_reverse_pref (p : Char → Bool) (l : List Char) :
    (l.reverse.dropWhile p).reverse <+: l := by
  have hsuf : l.reverse.dropWhile p <:+ l.reverse := List.dropWhile_suffix p
  have := reverse_prefix_iff.mpr hsuf
  rwa [List.reverse_reverse] at this

theorem rstripSlashL_isPrefixOf_self (l : List Char) : rstripSlashL l <+: l :=
  reverse_dropWhile_reverse_pref _ l

theorem pyStripL_prefix_dropWhile (l : List Char) :
    pyStripL l <+: l.dropWhile pyIsSpace :=
  reverse_dropWhile_reverse_pref _ _

theorem pyStripL_head {l : List Char} {c : Char} {cs : List Char}
    (h : pyStripL l = c :: cs) : pyIsSpace c = false := by
  obtain ⟨ds, hds⟩ := prefix_head_eq (pyStripL_prefix_dropWhile l) h
  exact dropWhile_cons_head hds

theorem prefix_pyStripL_head {l m : List Char} (hpre : m <+: pyStripL l) {c : Char}
    {cs : List Char} (h : m = c :: cs) : pyIsSpace c = false := by
  obtain ⟨ds, hds⟩ := prefix_head_eq hpre h
  exact pyStripL_head hds

/-- Structure of a normalized URL: its characters are a block `c` followed
by the `/invocations` suffix, where `c` contains no further occurrence of
the suffix, no question mark, and starts with a non-whitespace character
when non-empty. -/
theorem normalize_structure (url : String) :
    ∃ c : List Char, (normalize_agentcore_a2a_base_url url).data = c ++ invocationsStr.data ∧
      ¬ invocationsStr.data <:+: c ∧
      (∀ x ∈ c, x ≠ '?') ∧
      (∀ x cs, c = x :: cs → pyIsSpace x = false) := by
  unfold normalize_agentcore_a2a_base_url
  set d : List Char := rstripSlashL ((pyStripL url.data).takeWhile (fun c => c ≠ '?')) with hd
  have hdata : (rstripSlash (beforeQuery (pyStrip url))).data = d := rfl
  have hd_pre_take : d <+: (pyStripL url.data).takeWhile (fun c => c ≠ '?') :=
    rstripSlashL_isPrefixOf_self _
  have hd_pre_strip : d <+: pyStripL url.data :=
    hd_pre_take.trans (takeWhile_pref _ _)
  have hd_noq : ∀ x ∈ d, x ≠ '?' := by
    intro x hx
    have hx2 : x ∈ (pyStripL url.data).takeWhile (fun c => c ≠ '?') :=
      hd_pre_take.subset hx
    have := List.mem_takeWhile_imp hx2
    exact of_decide_eq_true this
  by_cases hc : containsSub invocationsStr (rstripSlash (beforeQuery (pyStrip url))) = true
  · rw [if_pos hc]
    unfold containsSub at hc
    rw [hdata] at hc
    match hsp : splitOnceAux invocationsStr.data d with
    | none => rw [hsp] at hc; simp at hc
    | some (p, r) =>
      refine ⟨p, ?_, ?_, ?_, ?_⟩
      · rw [String.data_append]
        congr 1
        show (beforeFirst invocationsStr (rstripSlash (beforeQuery (pyStrip url)))).data = p
        unfold beforeFirst
        rw [hdata, hsp]
      · exact splitOnceAux_some_no_pat_before (by decide) hsp
      · intro x hx
        have hp_pre_d : p <+: d := by
          have hs := splitOnceAux_append hsp
          exact ⟨invocationsStr.data ++ r, by rw [hs]; simp [List.append_assoc]⟩
        exact hd_noq x (hp_pre_d.subset hx)
      · intro x cs hx
        have hp_pre_d : p <+: d := by
          have hs := splitOnceAux_append hsp
          exact ⟨invocationsStr.data ++ r, by rw [hs]; simp [List.append_assoc]⟩
        exact prefix_pyStripL_head (hp_pre_d.trans hd_pre_strip) hx
  · rw [if_neg hc]
    refine ⟨d, ?_, ?_, hd_noq, ?_⟩
    · rw [String.data_append, hdata]
    · unfold containsSub at hc
      rw [hdata] at hc
      match hsp : splitOnceAux invocationsStr.data d with
      | some pr => rw [hsp] at hc; simp at hc
      | none => exact splitOnceAux_none_no_pat hsp
    · intro x cs hx
      exact prefix_pyStripL_head hd_pre_strip hx

/-- Normalization leaves any string of the shape produced by
`normalize_structure` unchanged. -/
theorem normalize_fixed {y : String} {c : List Char}
    (hdata : y.data = c ++ invocationsStr.data)
    (hni : ¬ invocationsStr.data <:+: c)
    (hnoq : ∀ x ∈ c, x ≠ '?')
    (hhead : ∀ x cs, c = x :: cs → pyIsSpace x = false) :
    normalize_agentcore_a2a_base_url y = y := by
  have hLrev : invocationsStr.data.reverse = 's' :: "noitacovni/".data := by decide
  have hdw : y.data.dropWhile pyIsSpace = y.data := by
    rw [hdata]
    match hc0 : c, hhead with
    | [], _ =>
      rw [List.nil_append]
      show invocationsStr.data.dropWhile pyIsSpace = invocationsStr.data
      decide
    | x :: cs, hhead =>
      have hx := hhead x cs rfl
      rw [List.cons_append, List.dropWhile_cons, hx]
      simp
  have hdwrev : y.data.reverse.dropWhile pyIsSpace = y.data.reverse := by
    rw [hdata, List.reverse_append, hLrev, List.cons_append, List.dropWhile_cons]
    have hs : pyIsSpace 's' = false := by decide
    rw [hs]
    simp
  have hstrip : pyStrip y = y := by
    apply String.ext
    show pyStripL y.data = y.data
    unfold pyStripL
    rw [hdw, hdwrev, List.reverse_reverse]
  have htw : y.data.takeWhile (fun ch => ch ≠ '?') = y.data := by
    rw [List.takeWhile_eq_self_iff]
    intro x hx
    rw [hdata] at hx
    rcases List.mem_append.mp hx with h | h
    · exact decide_eq_true (hnoq x h)
    · have hall : ∀ z ∈ invocationsStr.data, z ≠ '?' := by decide
      exact decide_eq_true (hall x h)
  have hquery : beforeQuery y = y := by
    apply String.ext
    show y.data.takeWhile (fun ch => ch ≠ '?') = y.data
    exact htw
  have hrs : rstripSlashL y.data = y.data := by
    unfold rstripSlashL
    have h1 : y.data.reverse.dropWhile (fun ch => ch == '/') = y.data.reverse := by
      rw [hdata, List.reverse_append, hLrev, List.cons_append, List.dropWhile_cons]
      have hs : (('s' : Char) == '/') = false := by decide
      rw [hs]
      simp
    rw [h1, List.reverse_reverse]
  have hrstrip : rstripSlash y = y := String.ext hrs
  have hsome : splitOnceAux invocationsStr.data y.data = some (c, []) := by
    rw [hdata]
    exact splitOnceAux_append_pat_self (by decide) invocations_no_self_overlap hni
  show (if containsSub invocationsStr (rstripSlash (beforeQuery (pyStrip y))) then
      beforeFirst invocationsStr (rstripSlash (beforeQuery (pyStrip y))) ++ invocationsStr
    else rstripSlash (beforeQuery (pyStrip y)) ++ invocationsStr) = y
  rw [hstrip, hquery, hrstrip]
  have hcont : containsSub invocationsStr y = true := by
    unfold containsSub
    rw [hsome]
    rfl
  rw [if_pos hcont]
  unfold beforeFirst
  rw [hsome]
  apply String.ext
  rw [String.data_append]
  exact hdata.symm

/-- C7: for every input URL string, endpoint normalization yields a string
with the query part removed (no question mark remains in the output) that
ends exactly in the `/invocations` suffix, and normalization is
idempotent: applying it to its own output returns that output unchanged. -/
theorem C7_normalize_query_suffix_idempotent (url : String) :
    (∃ p : String, normalize_agentcore_a2a_base_url url = p ++ invocationsStr) ∧
    ((normalize_agentcore_a2a_base_url url).data.all (fun ch => ch != '?')) = true ∧
    normalize_agentcore_a2a_base_url (normalize_agentcore_a2a_base_url url) =
      normalize_agentcore_a2a_base_url url := by
  obtain ⟨c, hdata, hni, hnoq, hhead⟩ := normalize_structure url
  refine ⟨⟨⟨c⟩, ?_⟩, ?_, ?_⟩
  · apply String.ext
    rw [String.data_append]
    exact hdata
  · rw [List.all_eq_true]
    intro x hx
    rw [hdata] at hx
    rcases List.mem_append.mp hx with h | h
    · simpa using hnoq _ h
    · have hinv : ∀ z ∈ invocationsStr.data, z ≠ '?' := by decide
      simpa using hinv x h
  · exact normalize_fixed hdata hni hnoq hhead

/-! ## Spec-side reading of the response parser (for C2) -/

/-- View of a JSON value as an object. -/
def asObjJ : JVal → Option (List (String × JVal))
  | .obj kvs => some kvs
  | _ => none

/-- View of a JSON value as a string. -/
def asStrJ : JVal → Option String
  | .str s => some s
  | _ => none

/-- First element of a JSON array value, when the value is a non-empty
array. -/
def arrHeadJ : JVal → Option JVal
  | .arr (x :: _) => some x
  | _ => none

/-- The path access `result.artifacts[0].parts[0].text`, required to be a
string, written as the specification words it: each step of the path is an
independent optional access, chained by `Option.bind`. -/
def specArtifactTextPath (kvs : List (String × JVal)) : Option String :=
  Option.bind (dget kvs "result") (fun r =>
  Option.bind (asObjJ r) (fun ro =>
  Option.bind (dget ro "artifacts") (fun a =>
  Option.bind (arrHeadJ a) (fun a0 =>
  Option.bind (asObjJ a0) (fun so =>
  Option.bind (dget so "parts") (fun p =>
  Option.bind (arrHeadJ p) (fun p0 =>
  Option.bind (asObjJ p0) (fun po =>
  Option.bind (dget po "text") asStrJ))))))))

/-- The response parser as the specification describes it: split into
lines, parse each non-blank line independently as JSON keeping only the
objects, scan the successfully parsed candidates in reverse order for the
first one exposing the artifact text, and return the original raw text
when none qualifies. -/
def specParseResponse (rawText : String) : String :=
  let parsedObjects := (pySplitlines rawText).filterMap (fun line =>
    match pyJsonLoads (pyStrip line) with
    | some (.obj kvs) => some kvs
    | _ => none)
  (parsedObjects.reverse.findSome? specArtifactTextPath).getD rawText

theorem tryArtifactText_eq_spec (kvs : List (String × JVal)) :
    tryArtifactText kvs = specArtifactTextPath kvs := by
  unfold tryArtifactText specArtifactTextPath
  cases dget kvs "result" with
  | none => rfl
  | some r =>
    cases r <;> try rfl
    case obj ro =>
      dsimp only [asObjJ, Option.bind]
      cases dget ro "artifacts" with
      | none => rfl
      | some a =>
        cases a <;> try rfl
        case arr elems =>
          cases elems with
          | nil => rfl
          | cons a0 arest =>
            dsimp only [arrHeadJ, Option.bind]
            cases a0 <;> try rfl
            case obj sel =>
              dsimp only [asObjJ, Option.bind]
              cases dget sel "parts" with
              | none => rfl
              | some p =>
                cases p <;> try rfl
                case arr pelems =>
                  cases pelems with
                  | nil => rfl
                  | cons p0 prest =>
                    dsimp only [arrHeadJ, Option.bind]
                    cases p0 <;> try rfl
                    case obj pd =>
                      dsimp only [asObjJ, Option.bind]
                      cases dget pd "text" with
                      | none => rfl
                      | some t => cases t <;> rfl

theorem jsonCandidates_eq_filterMap (lines : List String) :
    jsonCandidates lines = lines.filterMap (fun line =>
      match pyJsonLoads (pyStrip line) with
      | some (.obj kvs) => some kvs
      | _ => none) := by
  induction lines with
  | nil => rfl
  | cons line rest ih =>
    simp only [jsonCandidates, List.filterMap_cons]
    by_cases hb : pyStrip line = ""
    · rw [if_pos hb, hb]
      show jsonCandidates rest = _
      rw [ih]
      rfl
    · rw [if_neg hb]
      cases hp : pyJsonLoads (pyStrip line) with
      | none => simp [hp, ih]
      | some v => cases v <;> simp [hp, ih]

theorem scanForArtifactText_eq_findSome? (l : List (List (String × JVal))) :
    scanForArtifactText l = l.findSome? tryArtifactText := by
  induction l with
  | nil => rfl
  | cons kvs rest ih =>
    rw [List.findSome?_cons]
    show (match tryArtifactText kvs with
      | some t => some t
      | none => scanForArtifactText rest) = _
    cases tryArtifactText kvs <;> simp [ih]

/-- C2: the bridge response parser agrees, on every input string, with the
parser the specification describes: lines are parsed independently as
JSON, failures and non-objects are skipped, the parsed objects are scanned
in reverse order for the first string value at
`result.artifacts[0].parts[0].text`, and the original raw text is returned
when no candidate qualifies. -/
theorem C2_parse_response_matches_spec (rawText : String) :
    extract_first_artifact_text rawText = specParseResponse rawText := by
  unfold extract_first_artifact_text specParseResponse
  dsimp only
  rw [jsonCandidates_eq_filterMap, scanForArtifactText_eq_findSome?,
    show tryArtifactText = specArtifactTextPath from funext tryArtifactText_eq_spec]
  generalize ((pySplitlines rawText).filterMap _).reverse.findSome? specArtifactTextPath = x
  cases x <;> rfl

/-! ## C4: stable-identifier resolution -/

/-- The resolution mapping exactly as claim C4 words it: a URL that
already starts with the stable-identifier scheme is returned unchanged, a
URL containing the `/runtimes/` marker yields the percent-decoded segment
between the marker and the `/invocations` suffix, and any other URL
yields null. -/
def resolveStableIdClaim (url : String) : Option String :=
  if pyStartsWith arnPrefixStr url then some url
  else if containsSub runtimesMarker url then
    some (pyUnquote (beforeFirst invocationsStr ((afterFirst runtimesMarker url).getD "")))
  else none

/-- The amended C4 resolution mapping: as the claim, but operating on the
whitespace-stripped URL, and with an empty extracted segment resolving to
null rather than to the empty string. -/
def resolveStableIdAmended (url0 : String) : Option String :=
  let url := pyStrip url0
  if pyStartsWith arnPrefixStr url then some url
  else if containsSub runtimesMarker url then
    match afterFirst runtimesMarker url with
    | some rest =>
      let seg := beforeFirst invocationsStr rest
      if seg = "" then none else some (pyUnquote seg)
    | none => none
  else none

/-- C4 counterexample: the claim as stated fails on the code in two ways.
On `https://h/runtimes//invocations` the segment between the marker and
the suffix is empty, so the claim predicts the percent-decoded empty
string while the code returns null; on a whitespace-padded stable
identifier the claim predicts null (the raw URL starts with a space, not
the scheme) while the code strips first and returns the identifier. -/
theorem C4_counterexample :
    (extract_runtime_arn_from_agent_url "https://h/runtimes//invocations" = none ∧
      resolveStableIdClaim "https://h/runtimes//invocations" = some "") ∧
    (extract_runtime_arn_from_agent_url " arn:aws:bedrock-agentcore:x" =
        some "arn:aws:bedrock-agentcore:x" ∧
      resolveStableIdClaim " arn:aws:bedrock-agentcore:x" = none) := by
  exact ⟨⟨rfl, rfl⟩, ⟨rfl, rfl⟩⟩

/-- C4 (amended): URL resolution agrees everywhere with the claim mapping
applied to the whitespace-stripped URL with the empty segment resolving to
null, and a truthy explicit override identifier always takes precedence
over URL resolution during initialization. -/
theorem C4_amended_resolution (url : String) (env : Env) :
    extract_runtime_arn_from_agent_url url = resolveStableIdAmended url ∧
    (pyTruthyOpt env.orderAgentRuntimeArn = true →
      runtimeArnChoice env url = env.orderAgentRuntimeArn) := by
  constructor
  · unfold extract_runtime_arn_from_agent_url resolveStableIdAmended
    dsimp only
    by_cases h0 : pyStrip url = ""
    · rw [if_pos h0, h0]
      have h1 : pyStartsWith arnPrefixStr "" = false := by decide
      have h2 : containsSub runtimesMarker "" = false := by decide
      rw [h1, h2]
      simp
    · rw [if_neg h0]
      by_cases h1 : pyStartsWith arnPrefixStr (pyStrip url) = true
      · rw [if_pos h1, if_pos h1]
      · rw [if_neg h1, if_neg h1]
        by_cases h2 : containsSub runtimesMarker (pyStrip url) = true
        · simp only [h2, Bool.not_true, Bool.false_eq_true, if_false, if_true]
          cases afterFirst runtimesMarker (pyStrip url) <;> rfl
        · simp only [Bool.eq_false_iff.mpr h2, Bool.not_false, if_true, Bool.false_eq_true,
            if_false]
  · intro h
    unfold runtimeArnChoice
    cases henv : env.orderAgentRuntimeArn with
    | none => rw [henv] at h; simp [pyTruthyOpt] at h
    | some s =>
      rw [henv] at h
      simp only [pyTruthyOpt, Bool.not_eq_true'] at h
      have hne : s ≠ "" := by
        intro hs
        rw [hs] at h
        simp at h
      dsimp only
      rw [if_pos hne]

/-- Witness for the amended C4 theorem, instantiating both the resolution
equality (at a URL with a percent-encoded ARN and a query string) and the
override preference (at a truthy override). -/
theorem C4_amended_resolution_witness :
    extract_runtime_arn_from_agent_url "https://h/runtimes/ARN%3Aaws/invocations?q=1" =
      resolveStableIdAmended "https://h/runtimes/ARN%3Aaws/invocations?q=1" ∧
    runtimeArnChoice ⟨some "arn:aws:bedrock-agentcore:x", none, none⟩ "https://u" =
      some "arn:aws:bedrock-agentcore:x" := by
  constructor
  · exact (C4_amended_resolution "https://h/runtimes/ARN%3Aaws/invocations?q=1"
      ⟨none, none, none⟩).1
  · exact (C4_amended_resolution "https://u"
      ⟨some "arn:aws:bedrock-agentcore:x", none, none⟩).2 (by decide)

/-! ## C1: propagation across the capability boundary -/

/-- Whether a capability call returned normally (`.ok`) rather than
raising (`.error`). -/
def exceptOk {ε α : Type} : Except ε α → Bool
  | .ok _ => true
  | .error _ => false

/-- A freshly constructed tool whose URL carries no runtime ARN
information. -/
def cexToolState : ToolState :=
  { agentUrl := "https://example.com/foo"
    agentName := "Order Agent"
    inited := false
    runtimeArn := none
    clientCreated := false }

/-- An environment with none of the bridge variables set. -/
def cexEnv : Env := ⟨none, none, none⟩

/-- C1 counterexample: with no `ORDER_AGENT_RUNTIME_ARN` override and a
URL from which no ARN can be resolved, the lazily-invoked initialization
inside `list_waiting_receipt_orders_by_sku` raises, and the exception
propagates past the capability boundary instead of being turned into a
text result: the `await self._ensure_initialized()` call sits before the
capability `try` block and `_ensure_initialized` re-raises. -/
theorem C1_counterexample :
    list_waiting_receipt_orders_by_sku cexToolState cexEnv (.ok ()) (fun _ => .ok "body")
      "u1" "u2" "PRD-001" = .error initMissingArnMsg := by
  rfl

/-- C1 (amended): a capability call raises exactly when its lazy
initialization raises (and then with that same propagated failure);
whenever initialization succeeds the call returns a text result for every
input and transport outcome, and `start_approval_workflow`, which performs
no lazy initialization, returns a text result unconditionally. -/
theorem C1_amended_returns_text_unless_init_raises (st : ToolState) (env : Env)
    (clientRes : Except String Unit) (tr : TransportOracle) (sfn : SfnOracle)
    (u1 u2 u sku supplier_id note order_id oid2 : String) (items : List JVal) :
    exceptOk (list_waiting_receipt_orders_by_sku st env clientRes tr u1 u2 sku) =
      exceptOk (ensureInitialized st env clientRes) ∧
    exceptOk (create_order_registration st env clientRes tr u1 u2 supplier_id items note) =
      exceptOk (ensureInitialized st env clientRes) ∧
    exceptOk (process_approved_order st env clientRes tr u1 u2 oid2) =
      exceptOk (ensureInitialized st env clientRes) ∧
    exceptOk (start_approval_workflow env sfn u order_id) = true := by
  refine ⟨?_, ?_, ?_, ?_⟩
  · unfold list_waiting_receipt_orders_by_sku
    cases hinit : ensureInitialized st env clientRes with
    | error e => rfl
    | ok p =>
      obtain ⟨st', eff0⟩ := p
      dsimp only
      split
      · rfl
      · split
        · rfl
        · split <;> rfl
  · unfold create_order_registration
    cases hinit : ensureInitialized st env clientRes with
    | error e => rfl
    | ok p =>
      obtain ⟨st', eff0⟩ := p
      dsimp only
      split
      · rfl
      · split
        · rfl
        · split <;> rfl
  · unfold process_approved_order
    cases hinit : ensureInitialized st env clientRes with
    | error e => rfl
    | ok p =>
      obtain ⟨st', eff0⟩ := p
      dsimp only
      split
      · rfl
      · split
        · rfl
        · split <;> rfl
  · unfold start_approval_workflow
    split
    · rfl
    · split
      · rfl
      · split
        · rfl
        · split
          · rfl
          · split
            · rfl
            · dsimp only
              split <;> rfl

/-! ## C3: partial responses -/

/-- A tool state that is already initialized (as after a successful
`_ensure_initialized`). -/
def readyToolState : ToolState :=
  { agentUrl := "https://example.com/foo"
    agentName := "Order Agent"
    inited := true
    runtimeArn := some "arn:aws:bedrock-agentcore:x"
    clientCreated := true }

/-- A transport body that parses as a JSON-RPC envelope but contains no
extractable artifact text. -/
def c3RawBody : String := "\x7b\"result\": \x7b\x7d\x7d"

/-- C3 counterexample: a successful transport invocation whose body parses
as an envelope with no extractable `result.artifacts[0].parts[0].text`
makes the capability return the raw response body, not the
"no response received" message the claim predicts. -/
theorem C3_counterexample :
    list_waiting_receipt_orders_by_sku readyToolState cexEnv (.ok ())
        (fun _ => .ok c3RawBody) "u1" "u2" "PRD-001" =
      .ok (c3RawBody, [Effect.invokeRuntime "arn:aws:bedrock-agentcore:x"
        (buildMessageSendRequest "u1" "u2" (listWaitingQueryText "PRD-001"))]) ∧
    (c3RawBody == "No response received from Order Agent") = false := by
  exact ⟨rfl, by decide⟩

/-- C3 (amended): on the success path of
`list_waiting_receipt_orders_by_sku`, the capability returns the
"no response received" message exactly when the extracted text is empty
(in particular for an empty transport body); an envelope that parses but
exposes no artifact text yields the raw body back, because the extractor
falls back to the raw text. -/
theorem C3_amended_no_response_iff_empty_extract (st st' : ToolState) (env : Env)
    (clientRes : Except String Unit) (tr : TransportOracle) (eff0 : List Effect)
    (a u1 u2 sku raw : String)
    (hinit : ensureInitialized st env clientRes = .ok (st', eff0))
    (harn : st'.runtimeArn = some a)
    (hcl : st'.clientCreated = true)
    (hsku : ¬(sku = "" ∨ pyStrip sku = ""))
    (hresp : tr (buildMessageSendRequest u1 u2 (listWaitingQueryText sku)) = .ok raw) :
    list_waiting_receipt_orders_by_sku st env clientRes tr u1 u2 sku =
      .ok ((if extract_first_artifact_text raw = "" then
          "No response received from " ++ st'.agentName
        else extract_first_artifact_text raw),
        eff0 ++ [Effect.invokeRuntime a
          (buildMessageSendRequest u1 u2 (listWaitingQueryText sku))]) := by
  by_cases he : extract_first_artifact_text raw = "" <;>
    simp [list_waiting_receipt_orders_by_sku, invokeJsonrpcSync, hinit, harn, hcl, hresp,
      hsku, he]

/-! ## C5: item validation blocks the transport -/

/-- Python `isinstance(v, int)` on a modelled value: `bool` is a subclass
of `int` in Python, so booleans qualify. -/
def pyIsIntInst : JVal → Bool
  | .int _ => true
  | .bool _ => true
  | _ => false

/-- The integer value of a Python `int` instance (`True = 1`,
`False = 0`). -/
def pyIntVal : JVal → Int
  | .int n => n
  | .bool b => if b then 1 else 0
  | _ => 0

/-- An order item entry that claim C5 calls invalid: not a dictionary,
missing the `sku` or `qty` key, or carrying a `qty` that is not a Python
integer or is an integer at most zero. -/
def badOrderItem (item : JVal) : Bool :=
  match item with
  | .obj kvs =>
    if (dget kvs "sku").isNone ∨ (dget kvs "qty").isNone then true
    else
      match dget kvs "qty" with
      | some q => !(pyIsIntInst q) || decide (pyIntVal q ≤ 0)
      | none => true
  | _ => true

theorem ensureInitialized_no_invoke {st : ToolState} {env : Env}
    {clientRes : Except String Unit} {st' : ToolState} {effs : List Effect}
    (h : ensureInitialized st env clientRes = .ok (st', effs)) :
    effs.all (fun e => !e.isInvoke) = true := by
  unfold ensureInitialized at h
  split at h
  · cases h; rfl
  · split at h
    · exact absurd h (by simp)
    · split at h
      · exact absurd h (by simp)
      · split at h
        · exact absurd h (by simp)
        · cases h; rfl

theorem errorDecompAppend (s t : String) (h : ∃ r, s = "Error:" ++ r) :
    ∃ r, s ++ t = "Error:" ++ r := by
  obtain ⟨r, hr⟩ := h
  exact ⟨r ++ t, by rw [hr, String.append_assoc]⟩

theorem errorItemsDecomp (idx : Nat) (tail : String) :
    ∃ r, "Error: items[" ++ toString idx ++ tail = "Error:" ++ r :=
  errorDecompAppend _ tail (errorDecompAppend _ (toString idx) ⟨" items[", rfl⟩)

theorem validateItems_error_of_bad :
    ∀ (items : List JVal) (idx : Nat), (∃ item ∈ items, badOrderItem item = true) →
      ∃ msg, validateItems idx items = some msg ∧ ∃ r, msg = "Error:" ++ r := by
  intro items
  induction items with
  | nil =>
    rintro idx ⟨it, hin, _⟩
    cases hin
  | cons item rest ih =>
    rintro idx ⟨it, hin, hb⟩
    unfold validateItems
    cases item with
    | obj kvs =>
      dsimp only
      by_cases hkeys : (dget kvs "sku").isNone ∨ (dget kvs "qty").isNone
      · rw [if_pos hkeys]
        exact ⟨_, rfl, errorItemsDecomp idx _⟩
      · rw [if_neg hkeys]
        cases hq : dget kvs "qty" with
        | none =>
          exact absurd (Or.inr (by rw [hq]; rfl)) hkeys
        | some q =>
          have hbadq : badOrderItem (JVal.obj kvs) =
              (!(pyIsIntInst q) || decide (pyIntVal q ≤ 0)) := by
            unfold badOrderItem
            dsimp only
            rw [if_neg hkeys, hq]
          cases q with
          | int n =>
            dsimp only
            by_cases hn : n ≤ 0
            · rw [if_pos hn]
              exact ⟨_, rfl, errorItemsDecomp idx _⟩
            · rw [if_neg hn]
              cases hin with
              | head =>
                exfalso
                rw [hbadq] at hb
                simp [pyIsIntInst, pyIntVal, hn] at hb
              | tail _ hin =>
                exact ih (idx + 1) ⟨it, hin, hb⟩
          | bool b =>
            dsimp only
            by_cases hn : (if b then (1 : Int) else 0) ≤ 0
            · rw [if_pos hn]
              exact ⟨_, rfl, errorItemsDecomp idx _⟩
            · rw [if_neg hn]
              cases hin with
              | head =>
                exfalso
                rw [hbadq] at hb
                simp [pyIsIntInst, pyIntVal, hn] at hb
              | tail _ hin =>
                exact ih (idx + 1) ⟨it, hin, hb⟩
          | null => exact ⟨_, rfl, errorItemsDecomp idx _⟩
          | float m e => exact ⟨_, rfl, errorItemsDecomp idx _⟩
          | nan => exact ⟨_, rfl, errorItemsDecomp idx _⟩
          | inf ng => exact ⟨_, rfl, errorItemsDecomp idx _⟩
          | str s => exact ⟨_, rfl, errorItemsDecomp idx _⟩
          | arr xs => exact ⟨_, rfl, errorItemsDecomp idx _⟩
          | obj kvs2 => exact ⟨_, rfl, errorItemsDecomp idx _⟩
    | null => exact ⟨_, rfl, errorItemsDecomp idx _⟩
    | bool b => exact ⟨_, rfl, errorItemsDecomp idx _⟩
    | int n => exact ⟨_, rfl, errorItemsDecomp idx _⟩
    | float m e => exact ⟨_, rfl, errorItemsDecomp idx _⟩
    | nan => exact ⟨_, rfl, errorItemsDecomp idx _⟩
    | inf ng => exact ⟨_, rfl, errorItemsDecomp idx _⟩
    | str s => exact ⟨_, rfl, errorItemsDecomp idx _⟩
    | arr xs => exact ⟨_, rfl, errorItemsDecomp idx _⟩

theorem validateCreateOrder_error_of_bad (supplier_id : String) (items : List JVal)
    (hbad : ∃ item ∈ items, badOrderItem item = true) :
    ∃ msg, validateCreateOrder supplier_id items = some msg ∧ ∃ r, msg = "Error:" ++ r := by
  unfold validateCreateOrder
  by_cases h1 : supplier_id = "" ∨ pyStrip supplier_id = ""
  · rw [if_pos h1]
    exact ⟨_, rfl, ⟨" supplier_id parameter is required", rfl⟩⟩
  · rw [if_neg h1]
    obtain ⟨it, hin, hb⟩ := hbad
    have hne : items.isEmpty = false := by
      cases items with
      | nil => cases hin
      | cons a l => rfl
    rw [hne]
    simp only [Bool.false_eq_true, if_false]
    exact validateItems_error_of_bad items 0 ⟨it, hin, hb⟩

/-- C5: when the items list contains an invalid entry (missing key,
non-dictionary, or a `qty` that is not a positive Python integer),
`create_order_registration` returns a descriptive validation-failure
string, performs no transport invocation, and its result does not depend
on the transport oracle at all. -/
theorem C5_invalid_items_block (st st' : ToolState) (env : Env)
    (clientRes : Except String Unit) (tr : TransportOracle) (eff0 : List Effect)
    (u1 u2 supplier_id note : String) (items : List JVal)
    (hinit : ensureInitialized st env clientRes = .ok (st', eff0))
    (hbad : ∃ item ∈ items, badOrderItem item = true) :
    ∃ msg, create_order_registration st env clientRes tr u1 u2 supplier_id items note =
        .ok (msg, eff0) ∧
      (∃ r, msg = "Error:" ++ r) ∧
      eff0.all (fun e => !e.isInvoke) = true ∧
      (∀ tr2 : TransportOracle,
        create_order_registration st env clientRes tr2 u1 u2 supplier_id items note =
          create_order_registration st env clientRes tr u1 u2 supplier_id items note) := by
  obtain ⟨msg, hv, hpre⟩ := validateCreateOrder_error_of_bad supplier_id items hbad
  refine ⟨msg, ?_, hpre, ensureInitialized_no_invoke hinit, ?_⟩
  · unfold create_order_registration
    rw [hinit]
    dsimp only
    rw [hv]
  · intro tr2
    unfold create_order_registration
    rw [hinit]
    dsimp only
    rw [hv]

/-- Witness for C5 at a concrete item list whose single entry has
`qty = 0`. -/
theorem C5_invalid_items_block_witness :
    (∃ item ∈ [JVal.obj [("sku", JVal.str "PRD-001"), ("qty", JVal.int 0)]],
      badOrderItem item = true) ∧
    (∃ msg, create_order_registration readyToolState cexEnv (.ok ()) (fun _ => .ok "x")
        "u1" "u2" "SUP-001" [JVal.obj [("sku", JVal.str "PRD-001"), ("qty", JVal.int 0)]] "" =
        .ok (msg, []) ∧
      (∃ r, msg = "Error:" ++ r) ∧
      ([] : List Effect).all (fun e => !e.isInvoke) = true ∧
      (∀ tr2 : TransportOracle,
        create_order_registration readyToolState cexEnv (.ok ()) tr2 "u1" "u2" "SUP-001"
            [JVal.obj [("sku", JVal.str "PRD-001"), ("qty", JVal.int 0)]] "" =
          create_order_registration readyToolState cexEnv (.ok ()) (fun _ => .ok "x")
            "u1" "u2" "SUP-001"
            [JVal.obj [("sku", JVal.str "PRD-001"), ("qty", JVal.int 0)]] "")) := by
  constructor
  · exact ⟨_, List.mem_cons_self _ _, by decide⟩
  · exact C5_invalid_items_block readyToolState readyToolState cexEnv (.ok ())
      (fun _ => .ok "x") [] "u1" "u2" "SUP-001" ""
      [JVal.obj [("sku", JVal.str "PRD-001"), ("qty", JVal.int 0)]] rfl
      ⟨_, List.mem_cons_self _ _, by decide⟩

/-! ## C6: configuration checks of the approval workflow -/

/-- C6 counterexample: for the non-empty but all-whitespace order id
`" "` with the workflow configuration absent, `start_approval_workflow`
returns the parameter-required message, which does not name the missing
configuration value — refuting the claim as stated for non-empty order
ids. -/
theorem C6_counterexample :
    start_approval_workflow ⟨none, none, none⟩ (fun _ _ _ => .error "unreachable") "u" " " =
      .ok ("Error: order_id parameter is required", []) ∧
    strContainsB "Error: order_id parameter is required" "APPROVAL_STATE_MACHINE_ARN" =
      false := by
  exact ⟨rfl, by decide⟩

/-- C6 (amended): for every order id that is non-empty after trimming, a
missing (or empty, hence falsy) `APPROVAL_STATE_MACHINE_ARN` makes
`start_approval_workflow` return the message naming that variable with an
empty effect list (no client creation, no network call); when the state
machine ARN is present but `APPROVAL_APPROVER_EMAIL` is missing, the
message names the email variable, again with no effects. -/
theorem C6_amended_config_failures (env : Env) (sfn : SfnOracle) (u order_id : String)
    (hid : ¬(order_id = "" ∨ pyStrip order_id = "")) :
    (pyTruthyOpt env.approvalStateMachineArn = false →
      start_approval_workflow env sfn u order_id =
        .ok ("Error: APPROVAL_STATE_MACHINE_ARN environment variable is not set", []) ∧
      strContainsB "Error: APPROVAL_STATE_MACHINE_ARN environment variable is not set"
        "APPROVAL_STATE_MACHINE_ARN" = true) ∧
    (pyTruthyOpt env.approvalStateMachineArn = true →
      pyTruthyOpt env.approvalApproverEmail = false →
      start_approval_workflow env sfn u order_id =
        .ok ("Error: APPROVAL_APPROVER_EMAIL environment variable is not set", []) ∧
      strContainsB "Error: APPROVAL_APPROVER_EMAIL environment variable is not set"
        "APPROVAL_APPROVER_EMAIL" = true) := by
  constructor
  · intro harn
    refine ⟨?_, by decide⟩
    unfold start_approval_workflow
    rw [if_neg hid]
    cases hsm : env.approvalStateMachineArn with
    | none => rfl
    | some s =>
      rw [hsm] at harn
      simp only [pyTruthyOpt, Bool.not_eq_false'] at harn
      dsimp only
      rw [if_pos (by simpa using harn)]
  · intro harn hem
    unfold start_approval_workflow
    rw [if_neg hid]
    cases hsm : env.approvalStateMachineArn with
    | none => rw [hsm] at harn; simp [pyTruthyOpt] at harn
    | some s =>
      rw [hsm] at harn
      simp only [pyTruthyOpt, Bool.not_eq_true'] at harn
      have hsne : s ≠ "" := by
        intro hs
        rw [hs] at harn
        simp at harn
      dsimp only
      rw [if_neg hsne]
      cases hee : env.approvalApproverEmail with
      | none => exact ⟨rfl, by decide⟩
      | some e =>
        rw [hee] at hem
        simp only [pyTruthyOpt, Bool.not_eq_false'] at hem
        dsimp only
        rw [if_pos (by simpa using hem)]
        exact ⟨rfl, by decide⟩

/-- Witness for the amended C6 theorem, instantiating both configuration
failure branches at concrete environments. -/
theorem C6_amended_config_failures_witness :
    (start_approval_workflow ⟨none, none, none⟩ (fun _ _ _ => .error "boom") "u" "ord-1" =
        .ok ("Error: APPROVAL_STATE_MACHINE_ARN environment variable is not set", []) ∧
      strContainsB "Error: APPROVAL_STATE_MACHINE_ARN environment variable is not set"
        "APPROVAL_STATE_MACHINE_ARN" = true) ∧
    (start_approval_workflow ⟨none, some "arn:sm", none⟩ (fun _ _ _ => .error "boom") "u"
          "ord-1" =
        .ok ("Error: APPROVAL_APPROVER_EMAIL environment variable is not set", []) ∧
      strContainsB "Error: APPROVAL_APPROVER_EMAIL environment variable is not set"
        "APPROVAL_APPROVER_EMAIL" = true) := by
  constructor
  · exact (C6_amended_config_failures ⟨none, none, none⟩ (fun _ _ _ => .error "boom")
      "u" "ord-1" (by decide)).1 (by decide)
  · exact (C6_amended_config_failures ⟨none, some "arn:sm", none⟩
      (fun _ _ _ => .error "boom") "u" "ord-1" (by decide)).2 (by decide) (by decide)

/-! ## C8: unique execution names -/

/-- C8: with the two configuration values present and a valid order id,
`start_approval_workflow` submits exactly one Step Functions execution
whose name is `approval-<orderId>-<uuid4().hex[:8]>`; with a 32-character
lowercase-hex draw the suffix is 8 hex characters, and two draws with
distinct 8-character prefixes produce distinct execution names for the
same order id. -/
theorem C8_execution_name_unique (env : Env) (sfn : SfnOracle)
    (order_id u u2 smArn email : String)
    (harn : env.approvalStateMachineArn = some smArn) (hsm : smArn ≠ "")
    (hem : env.approvalApproverEmail = some email) (he : email ≠ "")
    (hid : ¬(order_id = "" ∨ pyStrip order_id = ""))
    (hu : u.data.length = 32)
    (hhex : u.data.all (fun c => c.isDigit || ('a' ≤ c && c ≤ 'f')) = true)
    (hdiff : pyTake 8 u ≠ pyTake 8 u2) :
    (∃ res, start_approval_workflow env sfn u order_id = .ok (res,
        [Effect.createClient "stepfunctions",
         Effect.startExecution smArn (approvalExecName order_id (pyTake 8 u))
           (approvalExecInput order_id email)])) ∧
    (pyTake 8 u).data.length = 8 ∧
    (pyTake 8 u).data.all (fun c => c.isDigit || ('a' ≤ c && c ≤ 'f')) = true ∧
    approvalExecName order_id (pyTake 8 u) ≠ approvalExecName order_id (pyTake 8 u2) := by
  refine ⟨?_, ?_, ?_, ?_⟩
  · unfold start_approval_workflow
    rw [if_neg hid, harn]
    try dsimp only
    rw [if_neg hsm, hem]
    try dsimp only
    rw [if_neg he]
    try dsimp only
    cases sfn smArn (approvalExecName order_id (pyTake 8 u))
        (approvalExecInput order_id email) with
    | error e => exact ⟨_, rfl⟩
    | ok resp => exact ⟨_, rfl⟩
  · show (u.data.take 8).length = 8
    rw [List.length_take, hu]
    decide
  · rw [List.all_eq_true] at hhex ⊢
    intro c hc
    exact hhex c (List.take_subset 8 u.data hc)
  · intro heq
    unfold approvalExecName at heq
    exact hdiff (strAppendLeftCancel heq)

/-- Witness for C8 at a concrete environment and two concrete uuid draws
with distinct 8-character prefixes. -/
theorem C8_execution_name_unique_witness :
    (∃ res, start_approval_workflow ⟨none, some "arn:sm", some "a@b.c"⟩
        (fun _ _ _ => .ok ⟨"arn:exec", "2026-01-01T00:00:00"⟩)
        "0123456789abcdef0123456789abcdef" "ord-1" = .ok (res,
        [Effect.createClient "stepfunctions",
         Effect.startExecution "arn:sm"
           (approvalExecName "ord-1" (pyTake 8 "0123456789abcdef0123456789abcdef"))
           (approvalExecInput "ord-1" "a@b.c")])) ∧
    (pyTake 8 "0123456789abcdef0123456789abcdef").data.length = 8 ∧
    approvalExecName "ord-1" (pyTake 8 "0123456789abcdef0123456789abcdef") ≠
      approvalExecName "ord-1" (pyTake 8 "ffff0000ffff0000ffff0000ffff0000") := by
  have h := C8_execution_name_unique ⟨none, some "arn:sm", some "a@b.c"⟩
    (fun _ _ _ => .ok ⟨"arn:exec", "2026-01-01T00:00:00"⟩) "ord-1"
    "0123456789abcdef0123456789abcdef" "ffff0000ffff0000ffff0000ffff0000"
    "arn:sm" "a@b.c" rfl (by decide) rfl (by decide) (by decide) (by decide) (by decide)
    (by decide)
  exact ⟨h.1, h.2.1, h.2.2.2⟩

/-! ## C9: the query envelope -/

/-- C9: for a SKU that is non-empty after trimming (and an initialized,
usable bridge), `list_waiting_receipt_orders_by_sku` builds an envelope
with protocol tag `2.0`, method `message/send`, the fresh request id
`req-<uuid>` and message id `msg-<uuid>` (distinct draws give distinct
ids), and exactly one text part whose text contains the literal SKU
string; the transport is invoked with exactly that envelope. -/
theorem C9_request_envelope (st st' : ToolState) (env : Env) (clientRes : Except String Unit)
    (tr : TransportOracle) (eff0 : List Effect) (a u1 u2 sku : String)
    (hinit : ensureInitialized st env clientRes = .ok (st', eff0))
    (harn : st'.runtimeArn = some a)
    (hcl : st'.clientCreated = true)
    (hsku : ¬(sku = "" ∨ pyStrip sku = "")) :
    (buildMessageSendRequest u1 u2 (listWaitingQueryText sku)).jsonrpc = "2.0" ∧
    (buildMessageSendRequest u1 u2 (listWaitingQueryText sku)).method = "message/send" ∧
    (buildMessageSendRequest u1 u2 (listWaitingQueryText sku)).id = "req-" ++ u1 ∧
    (buildMessageSendRequest u1 u2 (listWaitingQueryText sku)).message.messageId =
      "msg-" ++ u2 ∧
    (buildMessageSendRequest u1 u2 (listWaitingQueryText sku)).message.parts =
      [{ kind := "text", text := listWaitingQueryText sku }] ∧
    (∃ pre post, listWaitingQueryText sku = pre ++ sku ++ post) ∧
    (∀ v1, u1 ≠ v1 → ("req-" ++ u1 : String) ≠ "req-" ++ v1) ∧
    (∀ v2, u2 ≠ v2 → ("msg-" ++ u2 : String) ≠ "msg-" ++ v2) ∧
    (∃ r, list_waiting_receipt_orders_by_sku st env clientRes tr u1 u2 sku =
      .ok (r, eff0 ++ [Effect.invokeRuntime a
        (buildMessageSendRequest u1 u2 (listWaitingQueryText sku))])) := by
  refine ⟨rfl, rfl, rfl, rfl, rfl, ?_, ?_, ?_, ?_⟩
  · exact ⟨"List WAITING_RECEIPT orders for SKU: ", "", by rw [String.append_empty]; rfl⟩
  · intro v1 hne heq
    exact hne (strAppendLeftCancel heq)
  · intro v2 hne heq
    exact hne (strAppendLeftCancel heq)
  · cases htr : tr (buildMessageSendRequest u1 u2 (listWaitingQueryText sku)) with
    | error e =>
      refine ⟨"Error contacting " ++ st'.agentName ++ " via A2A: " ++ e, ?_⟩
      simp [list_waiting_receipt_orders_by_sku, invokeJsonrpcSync, hinit, harn, hcl,
        hsku, htr]
    | ok raw =>
      by_cases he : extract_first_artifact_text raw = ""
      · refine ⟨"No response received from " ++ st'.agentName, ?_⟩
        simp [list_waiting_receipt_orders_by_sku, invokeJsonrpcSync, hinit, harn, hcl,
          hsku, htr, he]
      · refine ⟨extract_first_artifact_text raw, ?_⟩
        simp [list_waiting_receipt_orders_by_sku, invokeJsonrpcSync, hinit, harn, hcl,
          hsku, htr, he]

/-- Witness for C9 at an initialized bridge and the SKU `PRD-001`. -/
theorem C9_request_envelope_witness :
    (buildMessageSendRequest "aa" "bb" (listWaitingQueryText "PRD-001")).jsonrpc = "2.0" ∧
    (∃ pre post, listWaitingQueryText "PRD-001" = pre ++ "PRD-001" ++ post) ∧
    ("req-" ++ "aa" : String) ≠ "req-" ++ "cc" ∧
    (∃ r, list_waiting_receipt_orders_by_sku readyToolState cexEnv (.ok ())
        (fun _ => .ok "resp") "aa" "bb" "PRD-001" =
      .ok (r, [] ++ [Effect.invokeRuntime "arn:aws:bedrock-agentcore:x"
        (buildMessageSendRequest "aa" "bb" (listWaitingQueryText "PRD-001"))])) := by
  have h := C9_request_envelope readyToolState readyToolState cexEnv (.ok ())
    (fun _ => .ok "resp") [] "arn:aws:bedrock-agentcore:x" "aa" "bb" "PRD-001"
    rfl rfl rfl (by decide)
  exact ⟨h.1, h.2.2.2.2.2.1, h.2.2.2.2.2.2.1 "cc" (by decide), h.2.2.2.2.2.2.2.2⟩

/-! ## C10: the optional note key -/

/-- C10: the serialized order payload carries a `note` key exactly when
the note argument is a non-empty string; an omitted or empty note yields a
payload whose keys are exactly `supplierId` and `items`, and the request
text embeds the `ensure_ascii=False` serialization of that payload. -/
theorem C10_note_key_iff_nonempty (supplier_id note : String) (items : List JVal) :
    (orderDataFields supplier_id items note).map Prod.fst =
      (if note = "" then ["supplierId", "items"] else ["supplierId", "items", "note"]) ∧
    createOrderQueryText supplier_id items note =
      "Create order registration with data: " ++
        dumpJVal false (JVal.obj (orderDataFields supplier_id items note)) := by
  constructor
  · unfold orderDataFields
    by_cases h : note = ""
    · simp [h]
    · simp [h]
  · rfl

/-- Witness for the amended C3 theorem, at an initialized tool, a valid
SKU and a transport body with no artifact text. -/
theorem C3_amended_no_response_iff_empty_extract_witness :
    list_waiting_receipt_orders_by_sku readyToolState cexEnv (.ok ())
        (fun _ => .ok "plain text") "u1" "u2" "PRD-002" =
      .ok ((if extract_first_artifact_text "plain text" = "" then
          "No response received from " ++ readyToolState.agentName
        else extract_first_artifact_text "plain text"),
        [] ++ [Effect.invokeRuntime "arn:aws:bedrock-agentcore:x"
          (buildMessageSendRequest "u1" "u2" (listWaitingQueryText "PRD-002"))]) := by
  exact C3_amended_no_response_iff_empty_extract readyToolState readyToolState cexEnv
    (.ok ()) (fun _ => .ok "plain text") [] "arn:aws:bedrock-agentcore:x" "u1" "u2"
    "PRD-002" "plain text" rfl rfl rfl (by decide) rfl

end OrderAudit
